import Mathlib

/-!
Verification development for the DevAI AI-task-execution and version-control
commit pipeline.  The repository ships the React frontend under src; the
backend components (Response Parser, Branch Namer, Version-Control Gateway,
Task Execution Orchestrator) are embedded here from the specification, while
the frontend execute-task handler is embedded from the source files.
-/

namespace AiSwe

/-! Data model (spec section 3 and the PRD file-change format). -/

inductive Action
  | create
  | update
  | delete
deriving DecidableEq, Repr

structure FileChange where
  path : String
  content : String
  action : Action
deriving DecidableEq, Repr

inductive TaskStatus
  | pending
  | in_progress
  | completed
  | failed
deriving DecidableEq, Repr

inductive Diagnostic
  | noDiag
  | aiCallFailed
  | resolveFailed
  | branchCreateExhausted
  | commitFailed (branch : String)
  | prOpenFailed (branch : String)
deriving DecidableEq, Repr

def Diagnostic.mentionsBranch : Diagnostic → String → Bool
  | .commitFailed b, name => b == name
  | .prOpenFailed b, name => b == name
  | _, _ => false

structure Task where
  id : Nat
  title : String
  description : String
  status : TaskStatus
  ai_response : Option String
  files_changed : List FileChange
  pr_id : Option Nat
  diagnostic : Diagnostic
deriving DecidableEq, Repr

inductive SourceType
  | github
  | upload
  | manual
deriving DecidableEq, Repr

structure Project where
  id : Nat
  source_type : SourceType
  default_branch : String
  github_owner : Option String
  github_repo : Option String
deriving DecidableEq, Repr

inductive PRStatus
  | open
  | merged
  | closed
deriving DecidableEq, Repr

structure PullRequest where
  id : Nat
  project_id : Nat
  task_id : Nat
  title : String
  branch_name : String
  base_branch : String
  status : PRStatus
  files_changed : List FileChange
  pr_number : Option Nat
  pr_url : Option String
deriving DecidableEq, Repr

/-! Character-level helpers used by the Response Parser and the Branch Namer. -/

def isSpaceChar (c : Char) : Bool := c == ' ' || c == '\t' || c == '\r'

def dropSpaces : List Char → List Char
  | [] => []
  | c :: cs => if isSpaceChar c then dropSpaces cs else c :: cs

def trimChars (l : List Char) : List Char :=
  dropSpaces (dropSpaces l.reverse).reverse

def startsWithChars : List Char → List Char → Bool
  | _, [] => true
  | [], _ :: _ => false
  | c :: cs, p :: ps => c == p && startsWithChars cs ps

def splitCharsOn (sep : Char) : List Char → List (List Char)
  | [] => [[]]
  | c :: cs =>
    let r := splitCharsOn sep cs
    if c == sep then [] :: r
    else
      match r with
      | [] => [[c]]
      | h :: t => (c :: h) :: t

def joinLinesChars : List (List Char) → List Char
  | [] => []
  | [l] => l
  | l :: ls => l ++ '\n' :: joinLinesChars ls

/-! Response Parser.

Modelled from the spec: the backend function that turns raw AI output text
into a structured, ordered list of file changes is not part of the shipped
source (only its PRD description and its frontend consumers are).  Spec
section 4.1 prescribes the contract — fenced blocks each preceded by a path
marker, order preserved, default action `create`, entries with invalid paths
dropped with a diagnostic, a ParseFailure diagnostic when nothing parses —
and leaves the exact delimiter convention to the implementer.  The concrete
convention chosen here: a line of the form `File: <path>` followed by a
```-fenced block of content. -/

def fileMarkerChars : List Char := ['F', 'i', 'l', 'e', ':']

def fenceChars : List Char := "```".toList

def isFenceLine (l : List Char) : Bool := startsWithChars (trimChars l) fenceChars

def markerPath (l : List Char) : Option (List Char) :=
  let t := trimChars l
  if startsWithChars t fileMarkerChars then some (trimChars (t.drop 5)) else none

def takeBlock : List (List Char) → List (List Char) × List (List Char)
  | [] => ([], [])
  | l :: ls =>
    if isFenceLine l then ([], ls)
    else
      let pr := takeBlock ls
      (l :: pr.1, pr.2)

def extractAux : Nat → List (List Char) → List (List Char × List Char)
  | 0, _ => []
  | _, [] => []
  | fuel + 1, l :: ls =>
    match markerPath l with
    | some p =>
      match ls with
      | [] => []
      | f :: rest =>
        if isFenceLine f then
          let pr := takeBlock rest
          (p, joinLinesChars pr.1) :: extractAux fuel pr.2
        else
          extractAux fuel ls
    | none => extractAux fuel ls

def extractBlocks (raw : String) : List (String × String) :=
  let ls := splitCharsOn '\n' raw.toList
  (extractAux ls.length ls).map (fun b => (String.mk b.1, String.mk b.2))

def dotDotChars : List Char := ['.', '.']

/-- Modelled from the spec: the FileChange path invariant of spec section 3 —
non-empty, forward-slash separators (no backslash), no `..` segment. -/
def pathValid (p : String) : Bool :=
  !p.toList.isEmpty && !(p.toList.contains '\\') &&
    !((splitCharsOn '/' p.toList).contains dotDotChars)

structure ParseResult where
  files : List FileChange
  diagnostics : List String
deriving DecidableEq, Repr

def mkCreate (b : String × String) : FileChange :=
  { path := b.1, content := b.2, action := Action.create }

def parseFailureMsg : String := "ParseFailure: no well-formed file blocks"

def droppedPathMsg (p : String) : String := "dropped invalid path: " ++ p

/-- Modelled from the spec: `parse(raw_text) -> ordered list of FileChange`
of spec section 4.1; total on every input, drops entries whose path fails
the invariant (with a diagnostic), signals ParseFailure when the result is
empty. -/
def parseAiResponse (raw : String) : ParseResult :=
  let blocks := extractBlocks raw
  let valid := blocks.filter (fun b => pathValid b.1)
  let dropped := blocks.filter (fun b => !pathValid b.1)
  let files := valid.map mkCreate
  { files := files,
    diagnostics :=
      dropped.map (fun b => droppedPathMsg b.1) ++
        (if files.isEmpty then [parseFailureMsg] else []) }

/-- Modelled from the spec: a well-formed file block of the AI response is a
marker-plus-fenced block whose path satisfies the FileChange invariant. -/
def wellFormedBlocks (raw : String) : List (String × String) :=
  (extractBlocks raw).filter (fun b => pathValid b.1)

/-! Branch Namer.

Modelled from the spec: section 4.2 — `feature/<slug>-<YYYYMMDDHHMM>`, slug
is the title lower-cased with non-alphanumeric runs collapsed to single
hyphens and truncated to 40 characters.  The backend implementation is not
part of the shipped source. -/

structure Timestamp where
  year : Nat
  month : Nat
  day : Nat
  hour : Nat
  minute : Nat
deriving DecidableEq, Repr

def digitChar (n : Nat) : Char := Char.ofNat (48 + n % 10)

def padNat : Nat → Nat → List Char
  | 0, _ => []
  | w + 1, n => padNat w (n / 10) ++ [digitChar n]

def formatStamp (t : Timestamp) : List Char :=
  padNat 4 t.year ++ padNat 2 t.month ++ padNat 2 t.day ++
    padNat 2 t.hour ++ padNat 2 t.minute

def slugMap (c : Char) : Char :=
  let l := c.toLower
  if l.isLower || l.isDigit then l else '-'

def collapseHyphens : List Char → List Char
  | [] => []
  | [c] => [c]
  | a :: b :: rest =>
    if a == '-' && b == '-' then collapseHyphens (b :: rest)
    else a :: collapseHyphens (b :: rest)

def slugChars (title : String) : List Char :=
  (collapseHyphens (title.toList.map slugMap)).take 40

def featureChars : List Char := ['f', 'e', 'a', 't', 'u', 'r', 'e', '/']

def branchNameChars (title : String) (t : Timestamp) : List Char :=
  featureChars ++ slugChars title ++ '-' :: formatStamp t

/-- Modelled from the spec: `name(task_title, now) -> branch_name` of spec
section 4.2. -/
def generateBranchName (title : String) (t : Timestamp) : String :=
  String.mk (branchNameChars title t)

/-- Characters a generated branch name may contain, per the spec: only
lowercase ASCII letters, digits, slash and hyphen. -/
def isBranchChar (c : Char) : Bool := c.isLower || c.isDigit || c == '/' || c == '-'

theorem isBranchChar_slugMap (c : Char) : isBranchChar (slugMap c) = true := by
  simp only [slugMap]
  by_cases h : (c.toLower.isLower || c.toLower.isDigit) = true
  · rw [if_pos h]
    unfold isBranchChar
    rcases Bool.or_eq_true _ _ |>.mp h with h1 | h1 <;> simp [h1]
  · rw [if_neg h]
    decide

theorem mem_collapseHyphens_subset :
    ∀ l : List Char, ∀ c ∈ collapseHyphens l, c ∈ l
  | [], c, h => by simp [collapseHyphens] at h
  | [a], c, h => by simpa [collapseHyphens] using h
  | a :: b :: rest, c, h => by
    unfold collapseHyphens at h
    split at h
    · have := mem_collapseHyphens_subset (b :: rest) c h
      exact List.mem_cons_of_mem a this
    · rcases List.mem_cons.mp h with h1 | h1
      · exact h1 ▸ List.mem_cons_self a _
      · exact List.mem_cons_of_mem a (mem_collapseHyphens_subset (b :: rest) c h1)

theorem isBranchChar_digitChar (n : Nat) : isBranchChar (digitChar n) = true := by
  unfold digitChar
  have h : n % 10 < 10 := Nat.mod_lt _ (by norm_num)
  interval_cases h : n % 10 <;> decide

theorem isBranchChar_padNat : ∀ w n : Nat, ∀ c ∈ padNat w n, isBranchChar c = true
  | 0, n, c, h => by simp [padNat] at h
  | w + 1, n, c, h => by
    unfold padNat at h
    rcases List.mem_append.mp h with h1 | h1
    · exact isBranchChar_padNat w (n / 10) c h1
    · rcases List.mem_singleton.mp h1 with rfl
      exact isBranchChar_digitChar n

theorem isBranchChar_formatStamp (t : Timestamp) :
    ∀ c ∈ formatStamp t, isBranchChar c = true := by
  intro c h
  unfold formatStamp at h
  simp only [List.mem_append] at h
  rcases h with ((((h | h) | h) | h) | h) <;> exact isBranchChar_padNat _ _ c h

theorem isBranchChar_slugChars (title : String) :
    ∀ c ∈ slugChars title, isBranchChar c = true := by
  intro c h
  unfold slugChars at h
  have h2 : c ∈ collapseHyphens (title.toList.map slugMap) := List.take_subset _ _ h
  have h3 : c ∈ title.toList.map slugMap := mem_collapseHyphens_subset _ c h2
  rcases List.mem_map.mp h3 with ⟨d, _, rfl⟩
  exact isBranchChar_slugMap d

/-- C5: the Branch Namer produces `feature/<slug>-<YYYYMMDDHHMM>`; every
character of every generated branch name is a lowercase ASCII letter, a
digit, a slash or a hyphen, and for title
"Add user authentication" at 2026-01-28T15:30 the output is exactly
`feature/add-user-authentication-202601281530`. -/
theorem branch_namer_correct :
    (∀ (title : String) (t : Timestamp),
        ((generateBranchName title t).toList.all isBranchChar) = true) ∧
    generateBranchName "Add user authentication"
        { year := 2026, month := 1, day := 28, hour := 15, minute := 30 } =
      "feature/add-user-authentication-202601281530" := by
  constructor
  · intro title t
    rw [List.all_eq_true]
    intro c hc
    have hc2 : c ∈ branchNameChars title t := hc
    unfold branchNameChars at hc2
    simp only [List.mem_append, List.mem_cons] at hc2
    rcases hc2 with (h | h) | h | h
    · fin_cases h <;> decide
    · exact isBranchChar_slugChars title c h
    · subst h; decide
    · exact isBranchChar_formatStamp t c h
  · decide

/-! Version-Control Gateway.

Modelled from the spec: section 4.3 and the Git hosting boundary of section
6 — branch refs, tree plus commit creation, fast-forward ref update.  The
remote repository is a map from branch name to head commit SHA together
with the store of commit objects; `commitFiles` builds one tree referencing
all files, creates one commit and advances the branch ref once.  Fault
injection flags model a remote API call failing at each step. -/

structure Commit where
  tree : List FileChange
  parent : Option String
  message : String
deriving DecidableEq, Repr

structure RemoteRepo where
  branches : List (String × String)
  commits : List (String × Commit)
deriving DecidableEq, Repr

inductive GitError
  | remoteNotFound
  | authFailure
  | branchExists
  | remoteError
  | emptyDiff
deriving DecidableEq, Repr

def branchHead (repo : RemoteRepo) (branch : String) : Option String :=
  (repo.branches.find? (fun p => p.1 == branch)).map (fun p => p.2)

def findCommit (repo : RemoteRepo) (sha : String) : Option Commit :=
  (repo.commits.find? (fun p => p.1 == sha)).map (fun p => p.2)

def setBranch (bs : List (String × String)) (branch sha : String) :
    List (String × String) :=
  bs.map (fun p => if p.1 == branch then (p.1, sha) else p)

structure FaultSpec where
  failTree : Bool
  failCommitObj : Bool
  failRefUpdate : Bool
  failOpenPR : Bool
  signalEmptyDiff : Bool
deriving DecidableEq, Repr

def noFaults : FaultSpec :=
  { failTree := false, failCommitObj := false, failRefUpdate := false,
    failOpenPR := false, signalEmptyDiff := false }

/-- Modelled from the spec: `commitFiles(owner, repo, branch, files, message)
-> commitSha` of spec section 4.3 — build a tree referencing all file blobs,
create a single commit against that tree, advance the branch ref; on any
step failure return RemoteError.  A commit object created before a failed
ref update stays unreachable from the branch. -/
def commitFiles (repo : RemoteRepo) (branch : String) (files : List FileChange)
    (message newSha : String) (faults : FaultSpec) :
    RemoteRepo × Except GitError String :=
  match branchHead repo branch with
  | none => (repo, .error .remoteNotFound)
  | some parentSha =>
    if faults.failTree then (repo, .error .remoteError)
    else if faults.failCommitObj then (repo, .error .remoteError)
    else
      let c : Commit := { tree := files, parent := some parentSha, message := message }
      let repoWithCommit : RemoteRepo := { repo with commits := (newSha, c) :: repo.commits }
      if faults.failRefUpdate then (repoWithCommit, .error .remoteError)
      else
        ({ repoWithCommit with branches := setBranch repo.branches branch newSha },
          .ok newSha)

theorem find_setBranch (bs : List (String × String)) (branch sha : String)
    (h : ((bs.find? (fun p => p.1 == branch)).isSome) = true) :
    (setBranch bs branch sha).find? (fun p => p.1 == branch) = some (branch, sha) := by
  induction bs with
  | nil => simp [List.find?] at h
  | cons p rest ih =>
    by_cases hp : (p.1 == branch) = true
    · have hb : p.1 = branch := by simpa using hp
      simp [setBranch, List.find?, hp, hb]
    · have hrest : ((rest.find? (fun q => q.1 == branch)).isSome) = true := by
        simpa [List.find?, hp] using h
      simpa [setBranch, List.find?, hp] using ih hrest

theorem branchHead_after_commit (repo : RemoteRepo) (branch : String)
    (files : List FileChange) (message newSha : String) (faults : FaultSpec)
    (h : (commitFiles repo branch files message newSha faults).2 = .ok newSha) :
    branchHead (commitFiles repo branch files message newSha faults).1 branch =
      some newSha := by
  unfold commitFiles at *
  cases hb : branchHead repo branch with
  | none => rw [hb] at h; simp at h
  | some parentSha =>
    rw [hb] at h
    by_cases h1 : faults.failTree = true
    · simp [h1] at h
    · by_cases h2 : faults.failCommitObj = true
      · simp [h1, h2] at h
      · by_cases h3 : faults.failRefUpdate = true
        · simp [h1, h2, h3] at h
        · simp only [h1, h2, h3, Bool.false_eq_true, if_false]
          have hsome : ((repo.branches.find? (fun p => p.1 == branch)).isSome) = true := by
            unfold branchHead at hb
            cases hf : repo.branches.find? (fun p => p.1 == branch) with
            | none => rw [hf] at hb; simp at hb
            | some q => simp [hf]
          unfold branchHead
          simp [find_setBranch repo.branches branch newSha hsome]

theorem commitFiles_error_branches (repo : RemoteRepo) (branch : String)
    (files : List FileChange) (message newSha : String) (faults : FaultSpec)
    (e : GitError)
    (h : (commitFiles repo branch files message newSha faults).2 = .error e) :
    (commitFiles repo branch files message newSha faults).1.branches =
      repo.branches := by
  unfold commitFiles at *
  cases hb : branchHead repo branch with
  | none => simp
  | some parentSha =>
    rw [hb] at h
    by_cases h1 : faults.failTree = true
    · simp [h1]
    · by_cases h2 : faults.failCommitObj = true
      · simp [h1, h2]
      · by_cases h3 : faults.failRefUpdate = true
        · simp [h1, h2, h3]
        · simp [h1, h2, h3] at h

/-- C1: `commitFiles` is atomic — on success the branch advances by exactly
one new commit whose tree holds exactly the given files (one tree, one
commit object, one ref advance), and on any error the branch head is
unchanged; a proper non-empty subset of the files is never applied. -/
theorem commitFiles_atomicity (repo : RemoteRepo) (branch : String)
    (files : List FileChange) (message newSha : String) (faults : FaultSpec)
    (hne : files ≠ [])
    (hvalid : (files.all (fun f => pathValid f.path)) = true) :
    (∀ sha, (commitFiles repo branch files message newSha faults).2 = .ok sha →
      sha = newSha ∧
      branchHead (commitFiles repo branch files message newSha faults).1 branch =
        some newSha ∧
      (commitFiles repo branch files message newSha faults).1.commits =
        (newSha,
          { tree := files, parent := branchHead repo branch, message := message }) ::
          repo.commits ∧
      findCommit (commitFiles repo branch files message newSha faults).1 newSha =
        some { tree := files, parent := branchHead repo branch, message := message }) ∧
    (∀ e, (commitFiles repo branch files message newSha faults).2 = .error e →
      branchHead (commitFiles repo branch files message newSha faults).1 branch =
        branchHead repo branch) := by
  constructor
  · intro sha hok
    have hsha : sha = newSha := by
      unfold commitFiles at hok
      cases hb : branchHead repo branch with
      | none => rw [hb] at hok; simp at hok
      | some parentSha =>
        rw [hb] at hok
        by_cases h1 : faults.failTree = true
        · simp [h1] at hok
        · by_cases h2 : faults.failCommitObj = true
          · simp [h1, h2] at hok
          · by_cases h3 : faults.failRefUpdate = true
            · simp [h1, h2, h3] at hok
            · simp [h1, h2, h3] at hok
              exact hok.symm
    subst hsha
    have hok2 : (commitFiles repo branch files message sha faults).2 = .ok sha := hok
    refine ⟨rfl, branchHead_after_commit repo branch files message sha faults hok2, ?_, ?_⟩
    · unfold commitFiles at hok ⊢
      cases hb : branchHead repo branch with
      | none => rw [hb] at hok; simp at hok
      | some parentSha =>
        rw [hb] at hok
        by_cases h1 : faults.failTree = true
        · simp [h1] at hok
        · by_cases h2 : faults.failCommitObj = true
          · simp [h1, h2] at hok
          · by_cases h3 : faults.failRefUpdate = true
            · simp [h1, h2, h3] at hok
            · simp [h1, h2, h3]
    · unfold commitFiles at hok ⊢
      cases hb : branchHead repo branch with
      | none => rw [hb] at hok; simp at hok
      | some parentSha =>
        rw [hb] at hok
        by_cases h1 : faults.failTree = true
        · simp [h1] at hok
        · by_cases h2 : faults.failCommitObj = true
          · simp [h1, h2] at hok
          · by_cases h3 : faults.failRefUpdate = true
            · simp [h1, h2, h3] at hok
            · simp only [h1, h2, h3, Bool.false_eq_true, if_false]
              unfold findCommit
              simp [List.find?]
  · intro e herr
    have hbs := commitFiles_error_branches repo branch files message newSha faults e herr
    unfold branchHead
    rw [hbs]

def sampleFile : FileChange :=
  { path := "app/Logger.php", content := "x", action := Action.create }

def sampleRemote : RemoteRepo :=
  { branches := [("main", "s0")], commits := [] }

/-- Witness for C1: a fault-free run on a concrete repository advances the
branch to the single new commit holding the full file list. -/
theorem commitFiles_atomicity_witness :
    ([sampleFile] ≠ [] ∧ ([sampleFile].all (fun f => pathValid f.path)) = true) ∧
    branchHead (commitFiles sampleRemote "main" [sampleFile] "msg" "s1" noFaults).1
        "main" = some "s1" ∧
    (commitFiles sampleRemote "main" [sampleFile] "msg" "s1" noFaults).1.commits =
      [("s1", { tree := [sampleFile], parent := some "s0", message := "msg" })] :=
  ⟨⟨by decide, by decide⟩,
    ((commitFiles_atomicity sampleRemote "main" [sampleFile] "msg" "s1" noFaults
        (by decide) (by decide)).1 "s1" rfl).2.1,
    ((commitFiles_atomicity sampleRemote "main" [sampleFile] "msg" "s1" noFaults
        (by decide) (by decide)).1 "s1" rfl).2.2.1⟩

/-! Task Execution Orchestrator.

Modelled from the spec: section 4.5 — precondition check, transition to
in_progress persisted before any external call, AI invocation, Response
Parser, branching on project source, Task and PullRequest bookkeeping, and
the propagation policy of section 7 (no rollback of a created branch).
The backend endpoint is not part of the shipped source; only its PRD
description and its frontend callers are. -/

def createBranch (repo : RemoteRepo) (name fromSha : String) :
    RemoteRepo × Except GitError Unit :=
  match branchHead repo name with
  | some _ => (repo, .error .branchExists)
  | none => ({ repo with branches := (name, fromSha) :: repo.branches }, .ok ())

def createBranchRetry (repo : RemoteRepo) (fromSha : String) :
    List String → RemoteRepo × Except GitError String
  | [] => (repo, .error .remoteError)
  | n :: ns =>
    match createBranch repo n fromSha with
    | (r, .ok _) => (r, .ok n)
    | (_, .error .branchExists) => createBranchRetry repo fromSha ns
    | (r, .error e) => (r, .error e)

def branchCandidates (base : String) : List String :=
  [base, base ++ "-2", base ++ "-3"]

/-- Modelled from the spec: `openPullRequest` of spec section 4.3 — fails
with RemoteError on a hosting failure, signals EmptyDiff (non-fatal) when
the branch has no diff from base, otherwise returns the PR number and
URL. -/
def openPullRequest (faults : FaultSpec) (prNumber : Nat) (url : String) :
    Except GitError (Nat × String) :=
  if faults.failOpenPR then .error .remoteError
  else if faults.signalEmptyDiff then .error .emptyDiff
  else .ok (prNumber, url)

inductive AiOutcome
  | failure
  | response (text : String)
deriving DecidableEq, Repr

inductive ExecError
  | invalidState
  | aiCallFailed
  | resolveFailed
  | branchCreateExhausted
  | commitFailed
  | prOpenFailed
deriving DecidableEq, Repr

inductive Event
  | persistStatus (s : TaskStatus)
  | aiCall
  | gwResolveHead
  | gwCreateBranch (name : String)
  | gwCommit (branch : String)
  | gwOpenPR (branch : String)
  | applyLocal
deriving DecidableEq, Repr

structure FreshIds where
  commitSha : String
  prId : Nat
  prNumber : Nat
  prUrl : String
deriving DecidableEq, Repr

structure ExecOutcome where
  task : Task
  pr : Option PullRequest
  remote : RemoteRepo
  events : List Event
  result : Except ExecError Unit
deriving Repr

def executableStatus (s : TaskStatus) : Bool :=
  s == .pending || s == .failed

def executeGithubSteps (t2 : Task) (project : Project) (files : List FileChange)
    (remote : RemoteRepo) (faults : FaultSpec) (ts : Timestamp)
    (fresh : FreshIds) : ExecOutcome :=
  match branchHead remote project.default_branch with
  | none =>
    { task := { t2 with status := .failed, diagnostic := .resolveFailed },
      pr := none, remote := remote,
      events := [.persistStatus .failed],
      result := .error .resolveFailed }
  | some headSha =>
    match createBranchRetry remote headSha
        (branchCandidates (generateBranchName t2.title ts)) with
    | (remote1, .error _) =>
      { task := { t2 with status := .failed, diagnostic := .branchCreateExhausted },
        pr := none, remote := remote1,
        events := [.gwCreateBranch (generateBranchName t2.title ts),
          .persistStatus .failed],
        result := .error .branchCreateExhausted }
    | (remote1, .ok actualName) =>
      match commitFiles remote1 actualName files ("AI: " ++ t2.title)
          fresh.commitSha faults with
      | (remote2, .error _) =>
        { task := { t2 with status := .failed, diagnostic := .commitFailed actualName },
          pr := none, remote := remote2,
          events := [.gwCreateBranch actualName, .gwCommit actualName,
            .persistStatus .failed],
          result := .error .commitFailed }
      | (remote2, .ok _) =>
        match openPullRequest faults fresh.prNumber fresh.prUrl with
        | .error .emptyDiff =>
          { task := { t2 with status := .completed },
            pr := none, remote := remote2,
            events := [.gwCreateBranch actualName, .gwCommit actualName,
              .gwOpenPR actualName, .persistStatus .completed],
            result := .ok () }
        | .error _ =>
          { task := { t2 with status := .failed, diagnostic := .prOpenFailed actualName },
            pr := none, remote := remote2,
            events := [.gwCreateBranch actualName, .gwCommit actualName,
              .gwOpenPR actualName, .persistStatus .failed],
            result := .error .prOpenFailed }
        | .ok pd =>
          let prRec : PullRequest :=
            { id := fresh.prId, project_id := project.id, task_id := t2.id,
              title := t2.title, branch_name := actualName,
              base_branch := project.default_branch, status := .open,
              files_changed := files, pr_number := some pd.1, pr_url := some pd.2 }
          { task := { t2 with status := .completed, pr_id := some fresh.prId },
            pr := some prRec, remote := remote2,
            events := [.gwCreateBranch actualName, .gwCommit actualName,
              .gwOpenPR actualName, .persistStatus .completed],
            result := .ok () }

def executeGithub (t2 : Task) (project : Project) (files : List FileChange)
    (remote : RemoteRepo) (faults : FaultSpec) (ts : Timestamp)
    (fresh : FreshIds) : ExecOutcome :=
  let core := executeGithubSteps t2 project files remote faults ts fresh
  { core with
    events := [.persistStatus .in_progress, .aiCall, .gwResolveHead] ++ core.events }

theorem executeGithub_task (t2 : Task) (project : Project)
    (files : List FileChange) (remote : RemoteRepo) (faults : FaultSpec)
    (ts : Timestamp) (fresh : FreshIds) :
    (executeGithub t2 project files remote faults ts fresh).task =
      (executeGithubSteps t2 project files remote faults ts fresh).task := rfl

theorem executeGithub_pr (t2 : Task) (project : Project)
    (files : List FileChange) (remote : RemoteRepo) (faults : FaultSpec)
    (ts : Timestamp) (fresh : FreshIds) :
    (executeGithub t2 project files remote faults ts fresh).pr =
      (executeGithubSteps t2 project files remote faults ts fresh).pr := rfl

theorem executeGithub_remote (t2 : Task) (project : Project)
    (files : List FileChange) (remote : RemoteRepo) (faults : FaultSpec)
    (ts : Timestamp) (fresh : FreshIds) :
    (executeGithub t2 project files remote faults ts fresh).remote =
      (executeGithubSteps t2 project files remote faults ts fresh).remote := rfl

theorem executeGithub_result (t2 : Task) (project : Project)
    (files : List FileChange) (remote : RemoteRepo) (faults : FaultSpec)
    (ts : Timestamp) (fresh : FreshIds) :
    (executeGithub t2 project files remote faults ts fresh).result =
      (executeGithubSteps t2 project files remote faults ts fresh).result := rfl

/-- Modelled from the spec: one execution request of the Task Execution
Orchestrator (spec section 4.5 steps 1 to 6).  External behaviour — the AI
collaborator outcome, remote-API fault injection, fresh identifiers — is
passed in; the result carries the persisted task, the created PullRequest
record if any, the remote repository state and the ordered event trace. -/
def executeTask (task : Task) (project : Project) (ai : AiOutcome)
    (remote : RemoteRepo) (faults : FaultSpec) (ts : Timestamp)
    (fresh : FreshIds) : ExecOutcome :=
  if executableStatus task.status then
    let t1 := { task with status := TaskStatus.in_progress }
    match ai with
    | .failure =>
      { task := { t1 with status := .failed, diagnostic := .aiCallFailed },
        pr := none, remote := remote,
        events := [.persistStatus .in_progress, .aiCall, .persistStatus .failed],
        result := .error .aiCallFailed }
    | .response text =>
      let files := (parseAiResponse text).files
      let t2 := { t1 with ai_response := some text, files_changed := files }
      if files.isEmpty then
        { task := { t2 with status := .completed },
          pr := none, remote := remote,
          events := [.persistStatus .in_progress, .aiCall, .persistStatus .completed],
          result := .ok () }
      else
        match project.source_type with
        | .github => executeGithub t2 project files remote faults ts fresh
        | _ =>
          let prRec : PullRequest :=
            { id := fresh.prId, project_id := project.id, task_id := task.id,
              title := task.title,
              branch_name := generateBranchName task.title ts,
              base_branch := project.default_branch, status := .open,
              files_changed := files, pr_number := none, pr_url := none }
          { task := { t2 with status := .completed, pr_id := some fresh.prId },
            pr := some prRec, remote := remote,
            events := [.persistStatus .in_progress, .aiCall, .applyLocal,
              .persistStatus .completed],
            result := .ok () }
  else
    { task := task, pr := none, remote := remote, events := [],
      result := .error .invalidState }

/-- C2: if the task status is neither pending nor failed, execution fails
fast with InvalidState and has no side effects — the task, the PullRequest
store and the remote repository are untouched and the event trace is empty;
if the status is pending or failed, the very first event is the persisted
transition to in_progress, before any external call. -/
theorem execute_precondition (task : Task) (project : Project) (ai : AiOutcome)
    (remote : RemoteRepo) (faults : FaultSpec) (ts : Timestamp)
    (fresh : FreshIds) :
    (executableStatus task.status = false →
      executeTask task project ai remote faults ts fresh =
        { task := task, pr := none, remote := remote, events := [],
          result := .error .invalidState }) ∧
    (executableStatus task.status = true →
      ∃ rest, (executeTask task project ai remote faults ts fresh).events =
        Event.persistStatus .in_progress :: rest) := by
  constructor
  · intro h
    unfold executeTask
    simp [h]
  · intro h
    unfold executeTask
    simp only [h, if_true]
    cases ai with
    | failure => exact ⟨_, rfl⟩
    | response text =>
      by_cases hf : (parseAiResponse text).files.isEmpty = true
      · simp only [hf, if_true]
        exact ⟨_, rfl⟩
      · simp only [hf, Bool.false_eq_true, if_false]
        cases project.source_type with
        | github => exact ⟨_, rfl⟩
        | upload => exact ⟨_, rfl⟩
        | manual => exact ⟨_, rfl⟩

/-- Witness for C2: a completed task is rejected untouched, and a pending
task's first event is the persisted in_progress transition. -/
theorem execute_precondition_witness :
    (executableStatus TaskStatus.completed = false ∧
      (executeTask
          { id := 1, title := "t", description := "", status := .completed,
            ai_response := none, files_changed := [], pr_id := none,
            diagnostic := .noDiag }
          { id := 1, source_type := .manual, default_branch := "main",
            github_owner := none, github_repo := none }
          .failure sampleRemote noFaults
          { year := 2026, month := 1, day := 28, hour := 15, minute := 30 }
          { commitSha := "c1", prId := 1, prNumber := 1, prUrl := "u" }).events = []) ∧
    (executableStatus TaskStatus.pending = true ∧
      ∃ rest, (executeTask
          { id := 1, title := "t", description := "", status := .pending,
            ai_response := none, files_changed := [], pr_id := none,
            diagnostic := .noDiag }
          { id := 1, source_type := .manual, default_branch := "main",
            github_owner := none, github_repo := none }
          .failure sampleRemote noFaults
          { year := 2026, month := 1, day := 28, hour := 15, minute := 30 }
          { commitSha := "c1", prId := 1, prNumber := 1, prUrl := "u" }).events =
        Event.persistStatus .in_progress :: rest) :=
  ⟨⟨rfl, by
      rw [(execute_precondition
        { id := 1, title := "t", description := "", status := .completed,
          ai_response := none, files_changed := [], pr_id := none,
          diagnostic := .noDiag }
        { id := 1, source_type := .manual, default_branch := "main",
          github_owner := none, github_repo := none }
        .failure sampleRemote noFaults
        { year := 2026, month := 1, day := 28, hour := 15, minute := 30 }
        { commitSha := "c1", prId := 1, prNumber := 1, prUrl := "u" }).1 rfl]⟩,
    rfl,
    (execute_precondition
      { id := 1, title := "t", description := "", status := .pending,
        ai_response := none, files_changed := [], pr_id := none,
        diagnostic := .noDiag }
      { id := 1, source_type := .manual, default_branch := "main",
        github_owner := none, github_repo := none }
      .failure sampleRemote noFaults
      { year := 2026, month := 1, day := 28, hour := 15, minute := 30 }
      { commitSha := "c1", prId := 1, prNumber := 1, prUrl := "u" }).2 rfl⟩

theorem executeGithubSteps_pr (t2 : Task) (project : Project)
    (files : List FileChange) (remote : RemoteRepo) (faults : FaultSpec)
    (ts : Timestamp) (fresh : FreshIds) :
    ((executeGithubSteps t2 project files remote faults ts fresh).pr = none ∧
      (executeGithubSteps t2 project files remote faults ts fresh).task.pr_id =
        t2.pr_id ∧
      (executeGithubSteps t2 project files remote faults ts fresh).task.files_changed =
        t2.files_changed ∧
      ∃ e, (executeGithubSteps t2 project files remote faults ts fresh).result =
        .error e) ∨
    ((executeGithubSteps t2 project files remote faults ts fresh).pr = none ∧
      (executeGithubSteps t2 project files remote faults ts fresh).task.pr_id =
        t2.pr_id ∧
      (executeGithubSteps t2 project files remote faults ts fresh).task.files_changed =
        t2.files_changed ∧
      (executeGithubSteps t2 project files remote faults ts fresh).result = .ok () ∧
      openPullRequest faults fresh.prNumber fresh.prUrl = .error .emptyDiff) ∨
    (∃ (name : String) (pd : Nat × String),
      (executeGithubSteps t2 project files remote faults ts fresh).pr = some
        { id := fresh.prId, project_id := project.id, task_id := t2.id,
          title := t2.title, branch_name := name,
          base_branch := project.default_branch, status := .open,
          files_changed := files, pr_number := some pd.1, pr_url := some pd.2 } ∧
      (executeGithubSteps t2 project files remote faults ts fresh).task.pr_id =
        some fresh.prId ∧
      (executeGithubSteps t2 project files remote faults ts fresh).task.files_changed =
        t2.files_changed ∧
      (executeGithubSteps t2 project files remote faults ts fresh).result = .ok ()) := by
  rcases hb : branchHead remote project.default_branch with _ | headSha
  · simp only [executeGithubSteps, hb]
    exact Or.inl ⟨trivial, trivial, trivial, _, rfl⟩
  · rcases hcb : createBranchRetry remote headSha
        (branchCandidates (generateBranchName t2.title ts)) with ⟨remote1, cres⟩
    cases cres with
    | error e1 =>
      simp only [executeGithubSteps, hb, hcb]
      exact Or.inl ⟨trivial, trivial, trivial, _, rfl⟩
    | ok actualName =>
      rcases hcf : commitFiles remote1 actualName files ("AI: " ++ t2.title)
          fresh.commitSha faults with ⟨remote2, cres2⟩
      cases cres2 with
      | error e2 =>
        simp only [executeGithubSteps, hb, hcb, hcf]
        exact Or.inl ⟨trivial, trivial, trivial, _, rfl⟩
      | ok sha =>
        rcases hop : openPullRequest faults fresh.prNumber fresh.prUrl with e3 | pd
        · cases e3 with
          | emptyDiff =>
            simp only [executeGithubSteps, hb, hcb, hcf, hop]
            exact Or.inr (Or.inl ⟨trivial, trivial, trivial, trivial, trivial⟩)
          | remoteNotFound =>
            simp only [executeGithubSteps, hb, hcb, hcf, hop]
            exact Or.inl ⟨trivial, trivial, trivial, _, rfl⟩
          | authFailure =>
            simp only [executeGithubSteps, hb, hcb, hcf, hop]
            exact Or.inl ⟨trivial, trivial, trivial, _, rfl⟩
          | branchExists =>
            simp only [executeGithubSteps, hb, hcb, hcf, hop]
            exact Or.inl ⟨trivial, trivial, trivial, _, rfl⟩
          | remoteError =>
            simp only [executeGithubSteps, hb, hcb, hcf, hop]
            exact Or.inl ⟨trivial, trivial, trivial, _, rfl⟩
        · simp only [executeGithubSteps, hb, hcb, hcf, hop]
          exact Or.inr (Or.inr ⟨actualName, pd, rfl, trivial, trivial, trivial⟩)

/-- C3 (amended): after an execution started on a task with no linked
PullRequest, the task's pr_id is non-null exactly when a PullRequest record
referencing the task was produced; such a record is produced only by a
successful execution with a non-empty file list, at most once, with
files_changed equal to the task's persisted files_changed; and a successful
execution with a non-empty file list produces one unless it is a github
execution whose openPullRequest signalled EmptyDiff, which completes with no
PullRequest. -/
theorem pr_record_invariant_amended (task : Task) (project : Project)
    (ai : AiOutcome) (remote : RemoteRepo) (faults : FaultSpec)
    (ts : Timestamp) (fresh : FreshIds) (hpr : task.pr_id = none) :
    ((executeTask task project ai remote faults ts fresh).task.pr_id.isSome ↔
      ∃ pr, (executeTask task project ai remote faults ts fresh).pr = some pr ∧
        pr.task_id = task.id) ∧
    (∀ pr, (executeTask task project ai remote faults ts fresh).pr = some pr →
      (executeTask task project ai remote faults ts fresh).result = .ok () ∧
      pr.files_changed =
        (executeTask task project ai remote faults ts fresh).task.files_changed ∧
      pr.files_changed ≠ []) ∧
    ((executeTask task project ai remote faults ts fresh).result = .ok () ∧
        (executeTask task project ai remote faults ts fresh).task.files_changed ≠ [] →
      ((executeTask task project ai remote faults ts fresh).pr).isSome ∨
      (project.source_type = .github ∧
        openPullRequest faults fresh.prNumber fresh.prUrl =
          .error .emptyDiff)) := by
  by_cases hstat : executableStatus task.status = true
  · unfold executeTask
    simp only [hstat, if_true]
    cases ai with
    | failure =>
      refine ⟨by simp [hpr], by simp, by simp⟩
    | response text =>
      by_cases hf : (parseAiResponse text).files.isEmpty = true
      · simp only [hf, if_true]
        have hnil : (parseAiResponse text).files = [] := by
          simpa using hf
        refine ⟨by simp [hpr], by simp, ?_⟩
        rintro ⟨-, hne⟩
        exact absurd hnil hne
      · simp only [hf, Bool.false_eq_true, if_false]
        have hne : (parseAiResponse text).files ≠ [] := by
          simpa using hf
        cases project.source_type with
        | github =>
          simp only [executeGithub_pr, executeGithub_task, executeGithub_result]
          rcases executeGithubSteps_pr
              { task with
                  status := TaskStatus.in_progress,
                  ai_response := some text,
                  files_changed := (parseAiResponse text).files }
              project (parseAiResponse text).files remote faults ts fresh with
            ⟨hpr2, hid, hfc, e, hres⟩ | ⟨hpr2, hid, hfc, hres, hop⟩ |
            ⟨name, pd, hpr2, hid, hfc, hres⟩
          · rw [hpr2, hid, hres]
            exact ⟨by simp [hpr], by simp, by simp⟩
          · rw [hpr2, hid, hres]
            refine ⟨by simp [hpr], by simp, ?_⟩
            intro h2
            exact Or.inr ⟨by trivial, hop⟩
          · rw [hpr2, hid, hfc, hres]
            refine ⟨by simp, ?_, by simp⟩
            intro pr hpr3
            simp only [Option.some.injEq] at hpr3
            subst hpr3
            exact ⟨rfl, by simp, by simpa using hne⟩
        | upload =>
          refine ⟨by simp, ?_, by simp⟩
          intro pr hpr3
          simp only [Option.some.injEq] at hpr3
          subst hpr3
          exact ⟨rfl, rfl, hne⟩
        | manual =>
          refine ⟨by simp, ?_, by simp⟩
          intro pr hpr3
          simp only [Option.some.injEq] at hpr3
          subst hpr3
          exact ⟨rfl, rfl, hne⟩
  · have hstat2 : executableStatus task.status = false := by
      simpa using hstat
    unfold executeTask
    simp only [hstat2, Bool.false_eq_true, if_false]
    refine ⟨by simp [hpr], by simp, by simp⟩

def sampleTask : Task :=
  { id := 1, title := "Add logging", description := "", status := .pending,
    ai_response := none, files_changed := [], pr_id := none,
    diagnostic := .noDiag }

def sampleProjectManual : Project :=
  { id := 1, source_type := .manual, default_branch := "main",
    github_owner := none, github_repo := none }

def sampleProjectGithub : Project :=
  { id := 1, source_type := .github, default_branch := "main",
    github_owner := some "octo", github_repo := some "demo" }

def sampleTs : Timestamp :=
  { year := 2026, month := 1, day := 28, hour := 15, minute := 30 }

def sampleFresh : FreshIds :=
  { commitSha := "c1", prId := 1, prNumber := 1, prUrl := "u" }

def sampleText : String := "File: app/Logger.php\n```\ncode\n```"

def emptyDiffFaults : FaultSpec :=
  { failTree := false, failCommitObj := false, failRefUpdate := false,
    failOpenPR := false, signalEmptyDiff := true }

/-- Counterexample to C3 as frozen: a successful github execution that
commits one file change and then receives the non-fatal EmptyDiff signal
from openPullRequest completes with no PullRequest record and a null pr_id,
so a PullRequest is not created for every successful execution producing at
least one file change. -/
theorem pr_record_invariant_counterexample :
    (executeTask sampleTask sampleProjectGithub (.response sampleText)
        sampleRemote emptyDiffFaults sampleTs sampleFresh).result = .ok () ∧
    (executeTask sampleTask sampleProjectGithub (.response sampleText)
        sampleRemote emptyDiffFaults sampleTs sampleFresh).task.files_changed ≠
      [] ∧
    (executeTask sampleTask sampleProjectGithub (.response sampleText)
        sampleRemote emptyDiffFaults sampleTs sampleFresh).task.status =
      .completed ∧
    (executeTask sampleTask sampleProjectGithub (.response sampleText)
        sampleRemote emptyDiffFaults sampleTs sampleFresh).pr = none ∧
    (executeTask sampleTask sampleProjectGithub (.response sampleText)
        sampleRemote emptyDiffFaults sampleTs sampleFresh).task.pr_id = none :=
  ⟨rfl, by decide, rfl, rfl, rfl⟩

/-- Witness for C3 (amended): a concrete execution on a manual project with
one parsed file links pr_id exactly when the PullRequest record exists. -/
theorem pr_record_invariant_witness :
    sampleTask.pr_id = none ∧
    ((executeTask sampleTask sampleProjectManual (AiOutcome.response sampleText)
        sampleRemote noFaults sampleTs sampleFresh).task.pr_id.isSome ↔
      ∃ pr, (executeTask sampleTask sampleProjectManual
          (AiOutcome.response sampleText) sampleRemote noFaults sampleTs
          sampleFresh).pr = some pr ∧ pr.task_id = sampleTask.id) :=
  ⟨rfl, (pr_record_invariant_amended sampleTask sampleProjectManual
    (AiOutcome.response sampleText) sampleRemote noFaults sampleTs
    sampleFresh rfl).1⟩

/-- C7: an execution whose parsed AI response yields zero files still
succeeds — final status completed, files_changed empty, pr_id null, no
PullRequest record. -/
theorem zero_files_completes (task : Task) (project : Project) (text : String)
    (remote : RemoteRepo) (faults : FaultSpec) (ts : Timestamp)
    (fresh : FreshIds)
    (hstat : executableStatus task.status = true)
    (hpr : task.pr_id = none)
    (hzero : (parseAiResponse text).files = []) :
    (executeTask task project (.response text) remote faults ts fresh).task.status =
      .completed ∧
    (executeTask task project (.response text) remote faults ts fresh).task.files_changed =
      [] ∧
    (executeTask task project (.response text) remote faults ts fresh).task.pr_id =
      none ∧
    (executeTask task project (.response text) remote faults ts fresh).task.ai_response =
      some text ∧
    (executeTask task project (.response text) remote faults ts fresh).pr = none ∧
    (executeTask task project (.response text) remote faults ts fresh).result =
      .ok () := by
  have hemp : (parseAiResponse text).files.isEmpty = true := by simp [hzero]
  refine ⟨?_, ?_, ?_, ?_, ?_, ?_⟩ <;>
    simp [executeTask, hstat, hemp, hzero, hpr]

/-- Witness for C7 on a raw AI response containing no file block. -/
theorem zero_files_completes_witness :
    executableStatus sampleTask.status = true ∧
    (parseAiResponse "nothing to parse").files = [] ∧
    (executeTask sampleTask sampleProjectGithub (.response "nothing to parse")
        sampleRemote noFaults sampleTs sampleFresh).task.status = .completed ∧
    (executeTask sampleTask sampleProjectGithub (.response "nothing to parse")
        sampleRemote noFaults sampleTs sampleFresh).task.pr_id = none :=
  have h := zero_files_completes sampleTask sampleProjectGithub "nothing to parse"
    sampleRemote noFaults sampleTs sampleFresh rfl rfl (by decide)
  ⟨rfl, by decide, h.1, h.2.2.1⟩

theorem createBranchRetry_ok_head (repo : RemoteRepo) (fromSha : String) :
    ∀ (names : List String) (r : RemoteRepo) (n : String),
      createBranchRetry repo fromSha names = (r, .ok n) →
      branchHead r n = some fromSha := by
  intro names
  induction names with
  | nil =>
    intro r n h
    simp [createBranchRetry] at h
  | cons m ms ih =>
    intro r n h
    simp only [createBranchRetry, createBranch] at h
    cases hcr : branchHead repo m with
    | some s =>
      rw [hcr] at h
      simp only [] at h
      exact ih r n h
    | none =>
      rw [hcr] at h
      simp only [Prod.mk.injEq, Except.ok.injEq] at h
      obtain ⟨h1, h2⟩ := h
      subst h2
      rw [show r = { repo with branches := (m, fromSha) :: repo.branches } from h1.symm]
      simp [branchHead, List.find?]

/-- C6: when commitFiles returns RemoteError after the branch was created on
the github path, the task fails, the diagnostic names the created branch, no
PullRequest record exists, and the created branch is still present on the
remote with its original head. -/
theorem commit_failure_aftermath (task : Task) (project : Project)
    (text : String) (remote : RemoteRepo) (faults : FaultSpec) (ts : Timestamp)
    (fresh : FreshIds) (headSha bname : String) (remote1 remote2 : RemoteRepo)
    (e : GitError)
    (hstat : executableStatus task.status = true)
    (hsrc : project.source_type = .github)
    (hfiles : (parseAiResponse text).files ≠ [])
    (hhead : branchHead remote project.default_branch = some headSha)
    (hcb : createBranchRetry remote headSha
        (branchCandidates (generateBranchName task.title ts)) =
      (remote1, .ok bname))
    (hcf : commitFiles remote1 bname (parseAiResponse text).files
        ("AI: " ++ task.title) fresh.commitSha faults = (remote2, .error e)) :
    (executeTask task project (.response text) remote faults ts fresh).task.status =
      .failed ∧
    Diagnostic.mentionsBranch
      (executeTask task project (.response text) remote faults ts fresh).task.diagnostic
      bname = true ∧
    (executeTask task project (.response text) remote faults ts fresh).pr = none ∧
    branchHead
      (executeTask task project (.response text) remote faults ts fresh).remote
      bname = some headSha := by
  have hhead1 : branchHead remote1 bname = some headSha :=
    createBranchRetry_ok_head remote headSha _ remote1 bname hcb
  have h2 : (commitFiles remote1 bname (parseAiResponse text).files
      ("AI: " ++ task.title) fresh.commitSha faults).2 = .error e := by rw [hcf]
  have hbr : remote2.branches = remote1.branches := by
    have h3 := commitFiles_error_branches remote1 bname (parseAiResponse text).files
      ("AI: " ++ task.title) fresh.commitSha faults e h2
    rwa [hcf] at h3
  have hfinal : branchHead remote2 bname = some headSha := by
    unfold branchHead
    rw [hbr]
    exact hhead1
  have hemp : ¬ ((parseAiResponse text).files.isEmpty = true) := by
    simpa using hfiles
  simp only [executeTask, hstat, if_true, hemp, Bool.false_eq_true, if_false,
    hsrc, executeGithub_task, executeGithub_pr, executeGithub_remote,
    executeGithubSteps, hhead, hcb, hcf]
  exact ⟨trivial, by simp [Diagnostic.mentionsBranch], trivial, hfinal⟩

def sampleBranch : String := generateBranchName "Add logging" sampleTs

def sampleRemote1 : RemoteRepo :=
  { branches := [(sampleBranch, "s0"), ("main", "s0")], commits := [] }

def failTreeFaults : FaultSpec :=
  { failTree := true, failCommitObj := false, failRefUpdate := false,
    failOpenPR := false, signalEmptyDiff := false }

/-- Witness for C6: a concrete github execution whose commit call fails
after branch creation leaves the branch in place and fails the task with a
diagnostic naming the branch. -/
theorem commit_failure_aftermath_witness :
    (parseAiResponse sampleText).files ≠ [] ∧
    (executeTask sampleTask sampleProjectGithub (.response sampleText)
        sampleRemote failTreeFaults sampleTs sampleFresh).task.status = .failed ∧
    Diagnostic.mentionsBranch
      (executeTask sampleTask sampleProjectGithub (.response sampleText)
        sampleRemote failTreeFaults sampleTs sampleFresh).task.diagnostic
      sampleBranch = true ∧
    branchHead
      (executeTask sampleTask sampleProjectGithub (.response sampleText)
        sampleRemote failTreeFaults sampleTs sampleFresh).remote
      sampleBranch = some "s0" :=
  have h := commit_failure_aftermath sampleTask sampleProjectGithub sampleText
    sampleRemote failTreeFaults sampleTs sampleFresh "s0" sampleBranch
    sampleRemote1 sampleRemote1 GitError.remoteError rfl rfl (by decide)
    rfl rfl rfl
  ⟨by decide, h.1, h.2.1, h.2.2.2⟩

/-! Concurrency gate.

Modelled from the spec: section 5 — concurrent execute requests for the
same task serialize through an atomic conditional state transition at the
storage layer; a request observing in_progress is rejected with
InvalidState. -/

def tryAcquire (s : TaskStatus) : TaskStatus × Bool :=
  if executableStatus s then (.in_progress, true) else (s, false)

/-- Modelled from the spec: the two admissible interleavings of two
concurrent execute requests A and B on one task; each request runs the
atomic gate once, in the order fixed by `firstIsA`.  Returns whether A was
admitted, whether B was admitted, and the final stored status. -/
def runTwoExecutes (firstIsA : Bool) (s : TaskStatus) :
    Bool × Bool × TaskStatus :=
  let r1 := tryAcquire s
  let r2 := tryAcquire r1.1
  if firstIsA then (r1.2, r2.2, r2.1) else (r2.2, r1.2, r2.1)

/-- C9: in every interleaving of two concurrent execute calls on the same
pending task exactly one call is admitted to in_progress, the stored status
ends in_progress, and an execute request observing in_progress is rejected
with InvalidState. -/
theorem concurrent_execute_mutual_exclusion :
    (∀ firstIsA : Bool,
      ((runTwoExecutes firstIsA .pending).1 = true ∧
        (runTwoExecutes firstIsA .pending).2.1 = false) ∨
      ((runTwoExecutes firstIsA .pending).1 = false ∧
        (runTwoExecutes firstIsA .pending).2.1 = true)) ∧
    (∀ firstIsA : Bool,
      (runTwoExecutes firstIsA .pending).2.2 = .in_progress) ∧
    (∀ (task : Task) (project : Project) (ai : AiOutcome) (remote : RemoteRepo)
        (faults : FaultSpec) (ts : Timestamp) (fresh : FreshIds),
      task.status = .in_progress →
      (executeTask task project ai remote faults ts fresh).result =
        .error .invalidState) := by
  refine ⟨by decide, by decide, ?_⟩
  intro task project ai remote faults ts fresh hs
  have hstat : executableStatus task.status = false := by rw [hs]; rfl
  simp [executeTask, hstat]

/-- Witness for C9: both interleavings on a concrete pending task, and an
in_progress task rejected with InvalidState. -/
theorem concurrent_execute_mutual_exclusion_witness :
    (((runTwoExecutes true TaskStatus.pending).1 = true ∧
        (runTwoExecutes true TaskStatus.pending).2.1 = false) ∨
      ((runTwoExecutes true TaskStatus.pending).1 = false ∧
        (runTwoExecutes true TaskStatus.pending).2.1 = true)) ∧
    ({ sampleTask with status := TaskStatus.in_progress } : Task).status =
      TaskStatus.in_progress ∧
    (executeTask { sampleTask with status := TaskStatus.in_progress }
        sampleProjectGithub .failure sampleRemote noFaults sampleTs
        sampleFresh).result = .error .invalidState :=
  ⟨concurrent_execute_mutual_exclusion.1 true, rfl,
    concurrent_execute_mutual_exclusion.2.2
      { sampleTask with status := TaskStatus.in_progress }
      sampleProjectGithub .failure sampleRemote noFaults sampleTs sampleFresh
      rfl⟩

/-! Frontend execute-task handler, embedded from the source: the
handleExecuteTask functions of the project detail page.  On a fulfilled
response the handler maps the task list, marking the executed task
completed and copying ai_response, files_changed (defaulting to the empty
list) and pr_id from the response body; on a rejected promise it marks the
task failed.  It never reads the status field of the response body. -/

structure ExecuteResponseBody where
  status : TaskStatus
  ai_response : String
  files_changed : Option (List FileChange)
  pr_id : Option Nat
deriving DecidableEq, Repr

def applyFulfilled (taskId : Nat) (body : ExecuteResponseBody)
    (tasks : List Task) : List Task :=
  tasks.map fun t =>
    if t.id == taskId then
      { t with status := .completed,
               ai_response := some body.ai_response,
               files_changed := body.files_changed.getD [],
               pr_id := body.pr_id }
    else t

def applyRejected (taskId : Nat) (tasks : List Task) : List Task :=
  tasks.map fun t =>
    if t.id == taskId then { t with status := .failed } else t

/-- C10: the displayed status after an execute call is determined solely by
promise fulfilment — completed on any fulfilled response regardless of the
body's status field, failed on any rejected response. -/
theorem frontend_status_from_promise :
    (∀ (taskId : Nat) (body : ExecuteResponseBody) (tasks : List Task),
      ∀ t ∈ applyFulfilled taskId body tasks, t.id = taskId →
        t.status = .completed) ∧
    (∀ (taskId : Nat) (tasks : List Task),
      ∀ t ∈ applyRejected taskId tasks, t.id = taskId →
        t.status = .failed) ∧
    (∀ (taskId : Nat) (body : ExecuteResponseBody) (s : TaskStatus)
        (tasks : List Task),
      applyFulfilled taskId { body with status := s } tasks =
        applyFulfilled taskId body tasks) := by
  refine ⟨?_, ?_, ?_⟩
  · intro taskId body tasks t ht hid
    rcases List.mem_map.mp ht with ⟨t0, ht0, rfl⟩
    by_cases h : (t0.id == taskId) = true
    · rw [if_pos h]
    · rw [if_neg h] at hid ⊢
      exact absurd hid (by simpa using h)
  · intro taskId tasks t ht hid
    rcases List.mem_map.mp ht with ⟨t0, ht0, rfl⟩
    by_cases h : (t0.id == taskId) = true
    · rw [if_pos h]
    · rw [if_neg h] at hid ⊢
      exact absurd hid (by simpa using h)
  · intro taskId body s tasks
    simp [applyFulfilled]

def sampleBody : ExecuteResponseBody :=
  { status := .pending, ai_response := "resp",
    files_changed := some [sampleFile], pr_id := some 7 }

def updSample : Task :=
  { id := 1, title := "Add logging", description := "", status := .completed,
    ai_response := some "resp", files_changed := [sampleFile],
    pr_id := some 7, diagnostic := .noDiag }

/-- Witness for C10: the concrete updated task displayed after a fulfilled
response whose body reports status pending is nevertheless completed. -/
theorem frontend_status_from_promise_witness :
    updSample ∈ applyFulfilled 1 sampleBody [sampleTask] ∧
    updSample.id = 1 ∧ updSample.status = .completed :=
  have hmem : updSample ∈ applyFulfilled 1 sampleBody [sampleTask] := by decide
  ⟨hmem, rfl,
    frontend_status_from_promise.1 1 sampleBody [sampleTask] updSample hmem rfl⟩

/-- C4: parse is total and deterministic, preserves the emitted file order,
and returns the empty list exactly when the input holds no well-formed file
block, in which case a ParseFailure diagnostic is signalled. -/
theorem parse_contract (raw : String) :
    ((parseAiResponse raw).files = (wellFormedBlocks raw).map mkCreate) ∧
    (List.Sublist ((parseAiResponse raw).files.map FileChange.path)
      ((extractBlocks raw).map Prod.fst)) ∧
    (∀ raw2 : String, raw = raw2 →
      parseAiResponse raw = parseAiResponse raw2) ∧
    ((parseAiResponse raw).files = [] ↔ wellFormedBlocks raw = []) ∧
    ((parseAiResponse raw).files = [] →
      parseFailureMsg ∈ (parseAiResponse raw).diagnostics) := by
  refine ⟨rfl, ?_, ?_, ?_, ?_⟩
  · have h1 : (parseAiResponse raw).files.map FileChange.path =
        (wellFormedBlocks raw).map Prod.fst := by
      simp [parseAiResponse, wellFormedBlocks, mkCreate, List.map_map,
        Function.comp]
    rw [h1]
    exact (List.filter_sublist _).map _
  · intro raw2 h
    rw [h]
  · constructor
    · intro h
      exact List.map_eq_nil_iff.mp h
    · intro h
      show (wellFormedBlocks raw).map mkCreate = []
      rw [h]
      rfl
  · intro h
    have hemp : ((extractBlocks raw).filter (fun b => pathValid b.1)).map
        mkCreate = [] := by
      simpa [parseAiResponse] using h
    simp [parseAiResponse, hemp]

/-- Witness for C4: the empty input parses to no files and carries the
ParseFailure diagnostic. -/
theorem parse_contract_witness :
    (parseAiResponse "").files = [] ∧
    parseFailureMsg ∈ (parseAiResponse "").diagnostics :=
  have h : (parseAiResponse "").files = [] := by decide
  ⟨h, (parse_contract "").2.2.2.2 h⟩

/-- C8: every FileChange the parser produces satisfies the path invariant
and is taken verbatim from an extracted block; a block whose path violates
the invariant is dropped with a diagnostic, never normalized. -/
theorem parser_path_invariant (raw : String) :
    (∀ fc ∈ (parseAiResponse raw).files, pathValid fc.path = true) ∧
    (∀ fc ∈ (parseAiResponse raw).files, ∃ b ∈ extractBlocks raw,
      fc.path = b.1 ∧ fc.content = b.2 ∧ fc.action = .create) ∧
    (∀ b ∈ extractBlocks raw, pathValid b.1 = false →
      droppedPathMsg b.1 ∈ (parseAiResponse raw).diagnostics) := by
  refine ⟨?_, ?_, ?_⟩
  · intro fc hfc
    simp only [parseAiResponse, List.mem_map, List.mem_filter] at hfc
    rcases hfc with ⟨b, ⟨hb, hvb⟩, rfl⟩
    exact hvb
  · intro fc hfc
    simp only [parseAiResponse, List.mem_map, List.mem_filter] at hfc
    rcases hfc with ⟨b, ⟨hb, hvb⟩, rfl⟩
    exact ⟨b, hb, rfl, rfl, rfl⟩
  · intro b hb hinv
    simp only [parseAiResponse, List.mem_append]
    left
    exact List.mem_map.mpr ⟨b, List.mem_filter.mpr ⟨hb, by simp [hinv]⟩, rfl⟩

def sampleMixedText : String :=
  "File: a.txt\n```\nx\n```\nFile: ../evil\n```\ny\n```"

/-- Witness for C8: a response holding one valid and one traversal path —
the valid one is kept with a valid path, the invalid one is dropped with a
diagnostic. -/
theorem parser_path_invariant_witness :
    (mkCreate ("a.txt", "x") ∈ (parseAiResponse sampleMixedText).files) ∧
    pathValid (mkCreate ("a.txt", "x")).path = true ∧
    ("../evil", "y") ∈ extractBlocks sampleMixedText ∧
    pathValid "../evil" = false ∧
    droppedPathMsg "../evil" ∈ (parseAiResponse sampleMixedText).diagnostics :=
  have hmem : mkCreate ("a.txt", "x") ∈ (parseAiResponse sampleMixedText).files := by
    decide
  have hb : ("../evil", "y") ∈ extractBlocks sampleMixedText := by decide
  have hinv : pathValid "../evil" = false := by decide
  ⟨hmem, (parser_path_invariant sampleMixedText).1 _ hmem, hb, hinv,
    (parser_path_invariant sampleMixedText).2.2 _ hb hinv⟩

end AiSwe
